import Mathlib

/-!
Shallow embedding of `src/interp_funct.cpp` (class `InterpFunct`).

Doubles are modelled as rationals (`ℚ`): every claim settled here is an
order/equality property whose truth is insensitive to rounding at the
magnitudes involved.  The GSL spline evaluator is opaque to this code, so
`getY` takes the evaluator as an explicit function argument; the state keeps
the dataset handed to `gsl_spline_init` and a flag recording whether a spline
object is currently allocated.

File contents are modelled as the list of maximal whitespace-separated
tokens (each either a parseable number or a malformed token), together with
a flag saying whether whitespace follows the last token, because
`operator>>` sets `eofbit` on a successful extraction that consumes the very
last character of the stream.  The `while(!fin.eof())` read loop is embedded
with explicit fuel: a `none` result for every fuel value is non-termination.
-/

namespace InterpFunct

/-- A whitespace-delimited token of the input file: a number, or a token at
which `operator>>(double&)` fails (non-numeric text). -/
inductive Token where
  | num (v : ℚ)
  | bad
deriving DecidableEq

/-- The `std::ifstream` state seen by the read loop: remaining tokens,
whether the file ends with trailing whitespace, and the two stream flags the
loop's control flow depends on. -/
structure StreamSt where
  toks : List Token
  tws : Bool
  eofbit : Bool
  failbit : Bool
deriving DecidableEq

/-- One `fin >> tmp` extraction (C++11 semantics).  If the stream is already
in `eofbit`/`failbit` state the sentry fails, sets `failbit` and leaves the
variable untouched.  Otherwise: end of input sets `eofbit` and `failbit` and
zeroes the variable; a malformed token sets `failbit` (not `eofbit`) and
zeroes the variable; a number is consumed, and `eofbit` is set exactly when
it was the last token and no whitespace follows it. -/
def readDouble (s : StreamSt) (tmp : ℚ) : ℚ × StreamSt :=
  if s.eofbit || s.failbit then
    (tmp, { s with failbit := true })
  else
    match s.toks with
    | [] => (0, { s with eofbit := true, failbit := true })
    | Token.bad :: _ => (0, { s with failbit := true })
    | Token.num v :: rest =>
        (v, { s with toks := rest, eofbit := rest.isEmpty && !s.tws })

/-- The body of `readTwoColumnData`'s `while(!fin.eof())` loop, with fuel.
Each iteration extracts twice and pushes each extracted value onto `x`
resp. `y` when `fin.eof()` is still false after that extraction —
exactly the source's `fin >> tmp; if(!fin.eof()) x.push_back(tmp);`. -/
def readLoopAux : Nat → StreamSt → ℚ → List ℚ → List ℚ → Option (List ℚ × List ℚ)
  | 0, _, _, _, _ => none
  | Nat.succ fuel, s, tmp, xs, ys =>
    if s.eofbit then some (xs, ys)
    else
      let p1 := readDouble s tmp
      let xs1 := if p1.2.eofbit then xs else xs ++ [p1.1]
      let p2 := readDouble p1.2 p1.1
      let ys1 := if p2.2.eofbit then ys else ys ++ [p2.1]
      readLoopAux fuel p2.2 p2.1 xs1 ys1

/-- `InterpFunct::readTwoColumnData`: `stat` failure returns `false` with no
read performed; otherwise the loop runs on a freshly opened stream.  `none`
means the loop did not finish within `fuel` iterations. -/
def readTwoColumnData (statOk : Bool) (toks : List Token) (tws : Bool)
    (fuel : Nat) : Option (Bool × List ℚ × List ℚ) :=
  if statOk then
    match readLoopAux fuel ⟨toks, tws, false, false⟩ 0 [] [] with
    | none => none
    | some (xs, ys) => some (true, xs, ys)
  else some (false, [], [])

/-- The data members of `class InterpFunct`.  `spline_alloc` records whether
a GSL spline/accelerator pair is currently allocated; `spline_xs`/`spline_ys`
are the dataset passed to `gsl_spline_init`. -/
structure IFState where
  spline_alloc : Bool
  spline_xs : List ℚ
  spline_ys : List ℚ
  x_min : ℚ
  x_max : ℚ
  y_x_min : ℚ
  y_x_max : ℚ
  is_unity : Bool
  is_init : Bool
deriving DecidableEq

/-- The constructor `InterpFunct()`: only `is_init = false` is established;
the remaining members are indeterminate in C++ and modelled as zero/empty. -/
def mkIF : IFState :=
  { spline_alloc := false, spline_xs := [], spline_ys := []
    x_min := 0, x_max := 0, y_x_min := 0, y_x_max := 0
    is_unity := false, is_init := false }

/-- `InterpFunct::clear`: frees the spline and resets the scalar members,
but only when `is_init` is set; otherwise it does nothing. -/
def clear (s : IFState) : IFState :=
  if s.is_init then
    { s with spline_alloc := false, x_min := 0, x_max := 0
             y_x_min := 0, y_x_max := 0, is_unity := false, is_init := false }
  else s

/-- `InterpFunct::init(name, is_ok)`: `clear()`, then read; on read failure
return with `is_ok = false`; on success build the spline over all parsed
samples and record the boundary members.  The source indexes `v_x[0]`,
`v_x[n-1]`, `v_y[0]`, `v_y[n-1]` with `n = v_x.size()` — out-of-range
accesses (possible when the parsed lists are empty or of unequal length) are
undefined in C++ and modelled by `List.getD` with default `0`. -/
def init_file (statOk : Bool) (toks : List Token) (tws : Bool) (fuel : Nat)
    (s : IFState) : Option (IFState × Bool) :=
  let s0 := clear s
  match readTwoColumnData statOk toks tws fuel with
  | none => none
  | some (ok, vx, vy) =>
    if ok then
      some ({ s0 with
        spline_alloc := true, spline_xs := vx, spline_ys := vy
        x_min := vx.getD 0 0, x_max := vx.getD (vx.length - 1) 0
        y_x_min := vy.getD 0 0, y_x_max := vy.getD (vx.length - 1) 0
        is_unity := false, is_init := true }, true)
    else some (s0, false)

/-- `InterpFunct::init(name)`: delegates to the two-argument `init`; on
failure prints `"Can not initialize interp_funct using file " << name
<< " !\n"` and calls `exit(0)`.  The result records the post-state, the text
written to `std::cout`, and whether the process terminated. -/
def init_name (name : String) (statOk : Bool) (toks : List Token) (tws : Bool)
    (fuel : Nat) (s : IFState) : Option (IFState × String × Bool) :=
  match init_file statOk toks tws fuel s with
  | none => none
  | some (s1, ok) =>
    if ok then some (s1, "", false)
    else
      some (s1, "Can not initialize interp_funct using file " ++ name ++ " !\n",
        true)

/-- `InterpFunct::init(x_min_i, x_max_i)`: sets the bounds and the unity
flag.  It neither calls `clear()` nor touches `is_init`. -/
def init_unity (a b : ℚ) (s : IFState) : IFState :=
  { s with x_min := a, x_max := b, is_unity := true }

/-- `InterpFunct::getXmin`. -/
def getXmin (s : IFState) : ℚ :=
  if s.x_min > 0 then s.x_min * (99999 / 100000) else s.x_min * (100001 / 100000)

/-- `InterpFunct::getXmax`. -/
def getXmax (s : IFState) : ℚ :=
  if s.x_max > 0 then s.x_max * (100001 / 100000) else s.x_max * (99999 / 100000)

/-- `InterpFunct::getY`; `ev` stands for `gsl_spline_eval` applied to the
stored dataset. -/
def getY (ev : List ℚ → List ℚ → ℚ → ℚ) (s : IFState) (x : ℚ) : ℚ :=
  if s.is_unity then 1
  else if x < s.x_min then s.y_x_min
  else if x > s.x_max then s.y_x_max
  else ev s.spline_xs s.spline_ys x

/-- One invocation of a public operation, for stating reachability
properties.  File operations carry the outcome of the `stat` check and the
file's token content. -/
inductive Op where
  | fileInit (name : String) (statOk : Bool) (toks : List Token) (tws : Bool)
  | fileInitAbort (name : String) (statOk : Bool) (toks : List Token) (tws : Bool)
  | unityInit (a b : ℚ)
  | evalAt (x : ℚ)
  | queryXmin
  | queryXmax
deriving DecidableEq

/-- Effect of one public operation: next state, text printed to `std::cout`,
and whether the process exited.  Evaluation and the bound queries return
values to the caller and leave the modelled state unchanged (the GSL
accelerator cache they may touch never affects results). -/
def step (fuel : Nat) (op : Op) (s : IFState) : Option (IFState × String × Bool) :=
  match op with
  | Op.fileInit _ statOk toks tws =>
      match init_file statOk toks tws fuel s with
      | none => none
      | some (s1, _) => some (s1, "", false)
  | Op.fileInitAbort name statOk toks tws => init_name name statOk toks tws fuel s
  | Op.unityInit a b => some (init_unity a b s, "", false)
  | Op.evalAt _ => some (s, "", false)
  | Op.queryXmin => some (s, "", false)
  | Op.queryXmax => some (s, "", false)

/-- Run a sequence of public operations from a state.  `none` when an
operation diverges or exits the process (no further state exists then). -/
def runOps (fuel : Nat) : List Op → IFState → Option IFState
  | [], s => some s
  | op :: rest, s =>
    match step fuel op s with
    | none => none
    | some (s1, _, ex) => if ex then none else runOps fuel rest s1

/-- Split a list into the elements at even positions and those at odd
positions: the pairing `x`/`y` assignment of a fully-kept token stream. -/
def altSplit : List ℚ → List ℚ × List ℚ
  | [] => ([], [])
  | [a] => ([a], [])
  | a :: b :: t => (a :: (altSplit t).1, b :: (altSplit t).2)

/-- A concrete spline evaluator, used to instantiate theorems at concrete
inputs. -/
def evZero : List ℚ → List ℚ → ℚ → ℚ := fun _ _ _ => 0

/-- Token content of a well-formed data file with pairs (1,5), (2,7). -/
def toksA : List Token := [Token.num 1, Token.num 5, Token.num 2, Token.num 7]

/-- The state produced by a successful `init` on `toksA`. -/
def stA : IFState :=
  { spline_alloc := true, spline_xs := [1, 2], spline_ys := [5, 7]
    x_min := 1, x_max := 2, y_x_min := 5, y_x_max := 7
    is_unity := false, is_init := true }

/-- The state produced by loading `toksA` and then calling the unity
initializer with bounds 0 and 3. -/
def st8 : IFState :=
  { spline_alloc := true, spline_xs := [1, 2], spline_ys := [5, 7]
    x_min := 0, x_max := 3, y_x_min := 5, y_x_max := 7
    is_unity := true, is_init := true }

/-- The state produced by a successful `init` on an empty file. -/
def stEmpty : IFState :=
  { spline_alloc := true, spline_xs := [], spline_ys := []
    x_min := 0, x_max := 0, y_x_min := 0, y_x_max := 0
    is_unity := false, is_init := true }

/-- `clear` always leaves `is_init` false. -/
lemma clear_is_init (s : IFState) : (clear s).is_init = false := by
  unfold clear
  split
  · rfl
  · simp_all

/-- `clear` does nothing on a state with `is_init = false`. -/
lemma clear_of_not_init {s : IFState} (h : s.is_init = false) : clear s = s := by
  simp [clear, h]

/-- When `stat` fails, `init` returns `is_ok = false` and the state is
exactly the result of the entry `clear()`. -/
lemma init_file_statFail (toks : List Token) (tws : Bool) (fuel : Nat)
    (s : IFState) : init_file false toks tws fuel s = some (clear s, false) := rfl

/-- When `stat` succeeds, a finished read reports `true` whatever was
parsed. -/
lemma readTwoColumnData_statOk {toks : List Token} {tws : Bool} {fuel : Nat}
    {r : Bool × List ℚ × List ℚ}
    (h : readTwoColumnData true toks tws fuel = some r) : r.1 = true := by
  unfold readTwoColumnData at h
  rcases e : readLoopAux fuel ⟨toks, tws, false, false⟩ 0 [] [] with _ | ⟨xs, ys⟩ <;>
    simp [e] at h
  simp [← h]

/-- Characterization of the state established by a successful
`init(name, is_ok)`: every member is overwritten from the parsed data. -/
lemma init_file_success {statOk : Bool} {toks : List Token} {tws : Bool}
    {fuel : Nat} {s st : IFState}
    (h : init_file statOk toks tws fuel s = some (st, true)) :
    ∃ vx vy, readTwoColumnData statOk toks tws fuel = some (true, vx, vy) ∧
      st = { spline_alloc := true, spline_xs := vx, spline_ys := vy
             x_min := vx.getD 0 0, x_max := vx.getD (vx.length - 1) 0
             y_x_min := vy.getD 0 0, y_x_max := vy.getD (vx.length - 1) 0
             is_unity := false, is_init := true } := by
  unfold init_file at h
  rcases e : readTwoColumnData statOk toks tws fuel with _ | ⟨ok, vx, vy⟩ <;>
    rw [e] at h
  · cases h
  · cases ok
    · simp at h
    · simp only [if_true, Option.some.injEq, Prod.mk.injEq, and_true] at h
      exact ⟨vx, vy, rfl, h.symm⟩

/-- Outside-the-branches form of `getY` on a non-unity state. -/
lemma getY_flat {s : IFState} (hu : s.is_unity = false)
    (ev : List ℚ → List ℚ → ℚ → ℚ) (x : ℚ) :
    (x < s.x_min → getY ev s x = s.y_x_min) ∧
    (s.x_min ≤ s.x_max → s.x_max < x → getY ev s x = s.y_x_max) := by
  constructor
  · intro h; simp [getY, hu, h]
  · intro ho h
    have h1 : ¬ x < s.x_min := not_lt.mpr (le_trans ho (le_of_lt h))
    simp [getY, hu, h1, h]

/-- C1: after a successful `init(name, is_ok)` the evaluator returns the
cached boundary value `y_x_min` for every argument strictly below `x_min`
and `y_x_max` for every argument strictly above `x_max`, with no spline
evaluation (the result does not depend on `ev`).  The hypothesis
`st.x_min ≤ st.x_max` is the spec's standing data-model invariant
(data assumed sorted ascending). -/
theorem C1_flat_extrapolation (statOk : Bool) (toks : List Token) (tws : Bool)
    (fuel : Nat) (s st : IFState) (ev : List ℚ → List ℚ → ℚ → ℚ) (x : ℚ)
    (h : init_file statOk toks tws fuel s = some (st, true))
    (hord : st.x_min ≤ st.x_max) :
    (x < st.x_min → getY ev st x = st.y_x_min) ∧
    (st.x_max < x → getY ev st x = st.y_x_max) := by
  obtain ⟨vx, vy, -, rfl⟩ := init_file_success h
  exact ⟨(getY_flat rfl ev x).1, (getY_flat rfl ev x).2 hord⟩

/-- Witness for C1 on the concrete file with pairs (1,5), (2,7): evaluation
at 0 (below x_min = 1) gives 5, at 5 (above x_max = 2) gives 7. -/
theorem C1_witness :
    getY evZero stA 0 = 5 ∧ getY evZero stA 5 = 7 := by
  have h1 := C1_flat_extrapolation true toksA true 20 mkIF stA evZero 0
    (by decide) (by decide)
  have h2 := C1_flat_extrapolation true toksA true 20 mkIF stA evZero 5
    (by decide) (by decide)
  exact ⟨h1.1 (by decide), h2.2 (by decide)⟩

/-- C2: after the unity initializer, `getY` returns exactly 1 for every
argument, every prior state, every pair of bounds in any order, and every
spline evaluator. -/
theorem C2_unity_mode (a b : ℚ) (s : IFState) (ev : List ℚ → List ℚ → ℚ → ℚ)
    (x : ℚ) : getY ev (init_unity a b s) x = 1 := by
  simp [getY, init_unity]

/-- Counterexample to C3: for the successfully loaded two-pair file with
x_min = 1, x_max = 2, the reported lower bound 0.99999 is strictly below
x_min and the reported upper bound 2.00002 is strictly above x_max, so
neither lies within the closed interval [x_min, x_max] at all. -/
theorem C3_counterexample :
    init_file true toksA true 20 mkIF = some (stA, true) ∧
    stA.x_min ≤ stA.x_max ∧
    getXmin stA < stA.x_min ∧ stA.x_max < getXmax stA := by
  refine ⟨by decide, by decide, ?_, ?_⟩
  · norm_num [getXmin, stA]
  · norm_num [getXmax, stA]

/-- C3 amended: the reported bounds move outward, not inward: `getXmin` is
strictly below `x_min` whenever `x_min ≠ 0`, `getXmax` strictly above
`x_max` whenever `x_max ≠ 0`, and each equals the stored bound exactly when
that bound is 0. -/
theorem C3_bounds_outward (s : IFState) :
    (s.x_min ≠ 0 → getXmin s < s.x_min) ∧ (s.x_min = 0 → getXmin s = 0) ∧
    (s.x_max ≠ 0 → s.x_max < getXmax s) ∧ (s.x_max = 0 → getXmax s = 0) := by
  refine ⟨?_, ?_, ?_, ?_⟩
  · intro h
    unfold getXmin
    split
    · rename_i hpos; nlinarith
    · rename_i hpos
      have hneg : s.x_min < 0 := lt_of_le_of_ne (not_lt.mp hpos) h
      nlinarith
  · intro h; simp [getXmin, h]
  · intro h
    unfold getXmax
    split
    · rename_i hpos; nlinarith
    · rename_i hpos
      have hneg : s.x_max < 0 := lt_of_le_of_ne (not_lt.mp hpos) h
      nlinarith
  · intro h; simp [getXmax, h]

/-- Witness for C3 amended, at a state with x_min = 1, x_max = -1 and at the
zero-bound state. -/
theorem C3_witness :
    getXmin (init_unity 1 (-1) mkIF) < 1 ∧ -1 < getXmax (init_unity 1 (-1) mkIF) ∧
    getXmin mkIF = 0 ∧ getXmax mkIF = 0 := by
  have h := C3_bounds_outward (init_unity 1 (-1) mkIF)
  have h0 := C3_bounds_outward mkIF
  exact ⟨h.1 (by decide), h.2.2.1 (by decide), h0.2.1 (by decide),
    h0.2.2.2 (by decide)⟩

/-- Counterexample to C4: an instance loaded from the two-pair file (state
`stA`) is wiped by a subsequent failed `init`: the post-failure state is the
cleared state, observably different (evaluation at -1 returns 5 before, 0
after). -/
theorem C4_counterexample :
    init_file true toksA true 20 mkIF = some (stA, true) ∧
    init_file false toksA true 20 stA = some (clear stA, false) ∧
    getY evZero stA (-1) = 5 ∧ getY evZero (clear stA) (-1) = 0 ∧
    clear stA ≠ stA := by decide

/-- C4 amended: a failed `init(name, is_ok)` leaves the instance cleared —
its state is exactly `clear` of the pre-call state, because `clear()` runs
unconditionally at entry and a read failure returns before any rebuild.
Only when the instance was not file-initialized (`is_init = false`, i.e.
fresh or unity-only) does the pre-call state survive unchanged. -/
theorem C4_failed_init_clears (toks : List Token) (tws : Bool) (fuel : Nat)
    (s : IFState) :
    init_file false toks tws fuel s = some (clear s, false) ∧
    (s.is_init = false → clear s = s) :=
  ⟨init_file_statFail toks tws fuel s, fun h => clear_of_not_init h⟩

/-- Witness for C4 amended: a unity-initialized, never file-initialized
instance passes through a failed `init` unchanged. -/
theorem C4_witness :
    init_file false [] true 5 (init_unity 3 4 mkIF) =
      some (clear (init_unity 3 4 mkIF), false) ∧
    clear (init_unity 3 4 mkIF) = init_unity 3 4 mkIF := by
  have h := C4_failed_init_clears [] true 5 (init_unity 3 4 mkIF)
  exact ⟨h.1, h.2 (by decide)⟩

/-- C7: when the `stat` existence check fails, `init(name, is_ok)` returns
(rather than aborting or diverging) with the success flag false, and the
resulting state is uninitialized (`is_init = false`). -/
theorem C7_missing_file (toks : List Token) (tws : Bool) (fuel : Nat)
    (s : IFState) :
    ∃ st, init_file false toks tws fuel s = some (st, false) ∧
      st.is_init = false :=
  ⟨clear s, init_file_statFail toks tws fuel s, clear_is_init s⟩

/-- C10: whenever the `stat` check succeeds and `init(name, is_ok)` returns,
it reports success and establishes data mode, independent of what the file
contained; the spline is built over exactly the parsed sample lists. -/
theorem C10_success_iff_stat (toks : List Token) (tws : Bool) (fuel : Nat)
    (s st : IFState) (ok : Bool)
    (h : init_file true toks tws fuel s = some (st, ok)) :
    ok = true ∧ st.is_init = true ∧ st.is_unity = false ∧
      st.spline_alloc = true := by
  have hok : ok = true := by
    unfold init_file at h
    rcases e : readTwoColumnData true toks tws fuel with _ | ⟨ok1, vx, vy⟩ <;>
      rw [e] at h
    · cases h
    · have h1 : ok1 = true := readTwoColumnData_statOk e
      subst h1
      simp only [if_true, Option.some.injEq, Prod.mk.injEq] at h
      exact h.2.symm
  subst hok
  obtain ⟨vx, vy, -, rfl⟩ := init_file_success h
  exact ⟨rfl, rfl, rfl, rfl⟩

/-- Witness for C10: a completely empty existing file yields success and a
data-mode state whose spline dataset has zero samples. -/
theorem C10_witness :
    init_file true [] true 5 mkIF = some (stEmpty, true) ∧
    stEmpty.is_init = true ∧ stEmpty.is_unity = false ∧
    stEmpty.spline_alloc = true ∧ stEmpty.spline_xs = [] := by
  have h := C10_success_iff_stat [] true 5 mkIF stEmpty true (by decide)
  exact ⟨by decide, h.2.1, h.2.2.1, h.2.2.2, by decide⟩

/-- Once the stream has `failbit` set without `eofbit` — the situation after
a failed extraction at a non-numeric token — every further iteration of the
`while(!fin.eof())` loop is a no-op that never sets `eofbit`, so the loop
runs forever (returns `none` for every fuel). -/
lemma readLoopAux_failbit : ∀ (fuel : Nat) (s : StreamSt) (tmp : ℚ)
    (xs ys : List ℚ), s.eofbit = false → s.failbit = true →
    readLoopAux fuel s tmp xs ys = none := by
  intro fuel
  induction fuel with
  | zero => intro s tmp xs ys _ _; rfl
  | succ f ih =>
    intro s tmp xs ys he hf
    simp only [readLoopAux, readDouble, he, hf, Bool.false_or, if_true,
      Bool.false_eq_true, if_false]
    exact ih _ _ _ _ (by simp [he]) (by simp)

/-- C6 (the code bug): on an existing file whose content is a single
non-numeric token, `init(name, is_ok)` never returns: the read loop
diverges for every fuel, every prior state and either trailing-whitespace
convention. -/
theorem C6_read_loop_diverges (fuel : Nat) (tws : Bool) (s : IFState) :
    init_file true [Token.bad] tws fuel s = none := by
  have hloop : readLoopAux fuel ⟨[Token.bad], tws, false, false⟩ 0 [] [] = none := by
    cases fuel with
    | zero => rfl
    | succ f =>
      simp only [readLoopAux, readDouble, Bool.false_or, if_false,
        Bool.false_eq_true]
      exact readLoopAux_failbit f _ _ _ _ rfl rfl
  simp [init_file, readTwoColumnData, hloop]

/-- `clear` preserves agreement of the allocation flag with `is_init`. -/
lemma clear_alloc_init {s : IFState} (hs : s.spline_alloc = s.is_init) :
    (clear s).spline_alloc = (clear s).is_init := by
  unfold clear
  split <;> simp_all

/-- Both exits of `init(name, is_ok)` preserve agreement of the allocation
flag with `is_init`. -/
lemma init_file_alloc_init {statOk : Bool} {toks : List Token} {tws : Bool}
    {fuel : Nat} {s st : IFState} {ok : Bool}
    (h : init_file statOk toks tws fuel s = some (st, ok))
    (hs : s.spline_alloc = s.is_init) :
    st.spline_alloc = st.is_init := by
  unfold init_file at h
  rcases e : readTwoColumnData statOk toks tws fuel with _ | ⟨ok1, vx, vy⟩ <;>
    rw [e] at h
  · cases h
  · cases ok1
    · simp only [Bool.false_eq_true, if_false, Option.some.injEq,
        Prod.mk.injEq] at h
      rw [← h.1]
      exact clear_alloc_init hs
    · simp only [if_true, Option.some.injEq, Prod.mk.injEq] at h
      rw [← h.1]

/-- Every public operation preserves agreement of the allocation flag with
`is_init`. -/
lemma step_alloc_init {fuel : Nat} {op : Op} {s st : IFState} {out : String}
    {ex : Bool} (h : step fuel op s = some (st, out, ex))
    (hs : s.spline_alloc = s.is_init) :
    st.spline_alloc = st.is_init := by
  cases op with
  | fileInit nm so tk tw =>
    simp only [step] at h
    split at h
    · cases h
    · rename_i s1 ok heq
      injection h with h1
      injection h1 with ha hb
      rw [← ha]
      exact init_file_alloc_init heq hs
  | fileInitAbort nm so tk tw =>
    simp only [step, init_name] at h
    split at h
    · cases h
    · rename_i s1 ok heq
      split at h <;>
      · injection h with h1
        injection h1 with ha hb
        rw [← ha]
        exact init_file_alloc_init heq hs
  | unityInit a b =>
    simp only [step] at h
    injection h with h1
    injection h1 with ha hb
    rw [← ha]
    simpa [init_unity] using hs
  | evalAt x =>
    simp only [step] at h
    injection h with h1
    injection h1 with ha hb
    rw [← ha]
    exact hs
  | queryXmin =>
    simp only [step] at h
    injection h with h1
    injection h1 with ha hb
    rw [← ha]
    exact hs
  | queryXmax =>
    simp only [step] at h
    injection h with h1
    injection h1 with ha hb
    rw [← ha]
    exact hs

/-- Sequencing preserves the agreement invariant. -/
lemma runOps_alloc_init (fuel : Nat) : ∀ (ops : List Op) (s st : IFState),
    runOps fuel ops s = some st → s.spline_alloc = s.is_init →
    st.spline_alloc = st.is_init := by
  intro ops
  induction ops with
  | nil =>
    intro s st h hs
    cases h
    exact hs
  | cons op rest ih =>
    intro s st h hs
    unfold runOps at h
    rcases e : step fuel op s with _ | ⟨s1, out, ex⟩ <;> rw [e] at h
    · cases h
    · cases ex
      · simp only [Bool.false_eq_true, if_false] at h
        exact ih s1 st h (step_alloc_init e hs)
      · simp at h

/-- C8 amended: in every state reachable from a fresh instance by public
operations, the spline representation is held exactly when `is_init` is set,
i.e. when a successful file initialization has happened since the last
`clear` — regardless of whether unity mode is currently active.  (The
original claim's "held iff data mode" fails: unity re-initialization leaves
`is_init` and the allocation untouched.) -/
theorem C8_spline_iff_init (fuel : Nat) (ops : List Op) (st : IFState)
    (h : runOps fuel ops mkIF = some st) : st.spline_alloc = st.is_init :=
  runOps_alloc_init fuel ops mkIF st h rfl

/-- Witness for C8 amended on a concrete two-operation run. -/
theorem C8_witness : st8.spline_alloc = st8.is_init :=
  C8_spline_iff_init 20 [Op.fileInit "a" true toksA true, Op.unityInit 0 3]
    st8 (by decide)

/-- Counterexample to C8: after a successful file load followed by a unity
initialization, the reachable state still holds the spline representation
while unity mode — not data mode — is active, so "spline held iff data
mode" fails, and the unity re-initialization did not release the spline. -/
theorem C8_counterexample :
    runOps 20 [Op.fileInit "a" true toksA true, Op.unityInit 0 3] mkIF =
      some st8 ∧
    st8.spline_alloc = true ∧ st8.is_unity = true ∧
    ¬(st8.is_init = true ∧ st8.is_unity = false) := by decide

/-- C9: among all public operations only `init(name)` can terminate the
process; when it does, the text printed is the diagnostic containing the
offending file name and the underlying `init(name, is_ok)` had failed;
when it returns normally nothing was printed and the underlying
initialization succeeded. -/
theorem C9_abort_diagnostics (fuel : Nat) (op : Op) (s st : IFState)
    (out : String) (ex : Bool) (h : step fuel op s = some (st, out, ex)) :
    ((∀ nm so tk tw, op ≠ Op.fileInitAbort nm so tk tw) →
      ex = false ∧ out = "") ∧
    (∀ nm so tk tw, op = Op.fileInitAbort nm so tk tw →
      (ex = true → init_file so tk tw fuel s = some (st, false) ∧
        ∃ a b, out = a ++ nm ++ b) ∧
      (ex = false → init_file so tk tw fuel s = some (st, true) ∧
        out = "")) := by
  cases op with
  | fileInit nm so tk tw =>
    refine ⟨fun _ => ?_, fun nm1 so1 tk1 tw1 hop => Op.noConfusion hop⟩
    simp only [step] at h
    split at h
    · cases h
    · rename_i s1 ok heq
      injection h with h1
      injection h1 with ha hb
      injection hb with hb1 hb2
      exact ⟨hb2.symm, hb1.symm⟩
  | fileInitAbort nm so tk tw =>
    refine ⟨fun hne => absurd rfl (hne nm so tk tw), ?_⟩
    intro nm1 so1 tk1 tw1 hop
    injection hop with e1 e2 e3 e4
    subst e1; subst e2; subst e3; subst e4
    simp only [step, init_name] at h
    split at h
    · cases h
    · rename_i s1 ok heq
      split at h
      · rename_i hok
        subst hok
        injection h with h1
        injection h1 with ha hb
        injection hb with hb1 hb2
        constructor
        · intro hex
          rw [← hb2] at hex
          cases hex
        · intro _
          rw [← ha]
          exact ⟨heq, hb1.symm⟩
      · rename_i hok
        have hok1 : ok = false := by
          cases ok
          · rfl
          · exact absurd rfl hok
        subst hok1
        injection h with h1
        injection h1 with ha hb
        injection hb with hb1 hb2
        constructor
        · intro _
          refine ⟨by rw [← ha]; exact heq, ?_⟩
          exact ⟨"Can not initialize interp_funct using file ", " !\n", hb1.symm⟩
        · intro hex
          rw [← hb2] at hex
          cases hex
  | unityInit a b =>
    refine ⟨fun _ => ?_, fun nm1 so1 tk1 tw1 hop => Op.noConfusion hop⟩
    simp only [step] at h
    injection h with h1
    injection h1 with ha hb
    injection hb with hb1 hb2
    exact ⟨hb2.symm, hb1.symm⟩
  | evalAt x =>
    refine ⟨fun _ => ?_, fun nm1 so1 tk1 tw1 hop => Op.noConfusion hop⟩
    simp only [step] at h
    injection h with h1
    injection h1 with ha hb
    injection hb with hb1 hb2
    exact ⟨hb2.symm, hb1.symm⟩
  | queryXmin =>
    refine ⟨fun _ => ?_, fun nm1 so1 tk1 tw1 hop => Op.noConfusion hop⟩
    simp only [step] at h
    injection h with h1
    injection h1 with ha hb
    injection hb with hb1 hb2
    exact ⟨hb2.symm, hb1.symm⟩
  | queryXmax =>
    refine ⟨fun _ => ?_, fun nm1 so1 tk1 tw1 hop => Op.noConfusion hop⟩
    simp only [step] at h
    injection h with h1
    injection h1 with ha hb
    injection hb with hb1 hb2
    exact ⟨hb2.symm, hb1.symm⟩

/-- Witness for C9: the hard-fail initializer on a missing file `data.txt`
exits after printing a message that contains the path. -/
theorem C9_witness :
    init_file false [] true 5 mkIF = some (mkIF, false) ∧
    ∃ a b, ("Can not initialize interp_funct using file " ++ "data.txt" ++
      " !\n" : String) = a ++ "data.txt" ++ b := by
  have h := C9_abort_diagnostics 5 (Op.fileInitAbort "data.txt" false [] true)
    mkIF mkIF
    ("Can not initialize interp_funct using file " ++ "data.txt" ++ " !\n")
    true (by decide)
  exact (h.2 "data.txt" false [] true rfl).1 rfl

/-- With `eofbit` set the loop exits immediately. -/
lemma readLoopAux_eof (fuel : Nat) (s : StreamSt) (tmp : ℚ) (xs ys : List ℚ)
    (h : s.eofbit = true) : readLoopAux (fuel + 1) s tmp xs ys = some (xs, ys) := by
  simp [readLoopAux, h]

/-- Full characterization of the read loop on a file of numeric tokens
`vs`: when the file ends in whitespace every token is kept and distributed
alternately to `x` and `y`; when the last token touches end-of-file it is
dropped (its extraction sets `eofbit`), and the rest is distributed
alternately. -/
lemma readLoopAux_num : ∀ (fuel : Nat) (vs : List ℚ) (tws : Bool) (tmp : ℚ)
    (xs ys : List ℚ), vs.length + 2 ≤ fuel →
    readLoopAux fuel ⟨vs.map Token.num, tws, false, false⟩ tmp xs ys =
      some (xs ++ (altSplit (if tws then vs else vs.dropLast)).1,
            ys ++ (altSplit (if tws then vs else vs.dropLast)).2) := by
  intro fuel
  induction fuel with
  | zero =>
    intro vs tws tmp xs ys h
    exact absurd h (by omega)
  | succ f ih =>
    intro vs tws tmp xs ys h
    rcases vs with _ | ⟨a, _ | ⟨b, t⟩⟩
    · obtain ⟨f1, rfl⟩ : ∃ f1, f = f1 + 1 :=
        ⟨f - 1, by simp at h; omega⟩
      simp [readLoopAux, readDouble, altSplit]
    · obtain ⟨f1, rfl⟩ : ∃ f1, f = f1 + 1 :=
        ⟨f - 1, by simp at h; omega⟩
      cases tws <;> simp [readLoopAux, readDouble, altSplit]
    · rcases t with _ | ⟨c, t1⟩
      · cases tws
        · obtain ⟨f1, rfl⟩ : ∃ f1, f = f1 + 1 :=
            ⟨f - 1, by simp at h; omega⟩
          simp [readLoopAux, readDouble, altSplit]
        · have hih := ih [] true b (xs ++ [a]) (ys ++ [b])
            (by simp at h ⊢; omega)
          simp only [List.map] at hih ⊢
          simp [readLoopAux, readDouble, altSplit, hih]
      · have hih := ih (c :: t1) tws b (xs ++ [a]) (ys ++ [b])
          (by simp at h ⊢; omega)
        simp only [List.map] at hih ⊢
        cases tws
        · simp only [readLoopAux, readDouble] at hih ⊢
          simp [hih, altSplit]
        · simp only [readLoopAux, readDouble] at hih ⊢
          simp [hih, altSplit]

/-- The read result of `readTwoColumnData` on an existing all-numeric file. -/
lemma readTwoColumnData_num (vs : List ℚ) (tws : Bool) (fuel : Nat)
    (h : vs.length + 2 ≤ fuel) :
    readTwoColumnData true (vs.map Token.num) tws fuel =
      some (true, (altSplit (if tws then vs else vs.dropLast)).1,
        (altSplit (if tws then vs else vs.dropLast)).2) := by
  unfold readTwoColumnData
  rw [if_pos rfl, readLoopAux_num fuel vs tws 0 [] [] h]
  simp

/-- Counterexample to C5: with trailing whitespace, the file "1 2 3" (odd
token count) yields x = [1, 3], y = [2] — the dangling 3 IS appended to the
x sequence; and without trailing whitespace, the file "1 2" (even token
count) yields x = [1], y = [] — the final complete pair is NOT kept. -/
theorem C5_counterexample :
    readTwoColumnData true [Token.num 1, Token.num 2, Token.num 3] true 20 =
      some (true, [1, 3], [2]) ∧
    readTwoColumnData true [Token.num 1, Token.num 2] false 20 =
      some (true, [1], []) := by decide

/-- C5 amended: what is appended depends on trailing whitespace, not on
token-count parity.  If whitespace follows the last token, every token is
appended, alternately to `x` and `y` (so an odd count leaves the dangling
value appended to `x`); if the last token abuts end-of-file, exactly the
final token is dropped and the remaining tokens are appended alternately
(so an even count loses the final `y` of a complete pair).  The sample
count equals the number of complete pairs exactly in the cases even+trailing
and odd+non-trailing. -/
theorem C5_token_split (vs : List ℚ) (tws : Bool) (fuel : Nat)
    (h : vs.length + 2 ≤ fuel) :
    readTwoColumnData true (vs.map Token.num) tws fuel =
      some (true, (altSplit (if tws then vs else vs.dropLast)).1,
        (altSplit (if tws then vs else vs.dropLast)).2) :=
  readTwoColumnData_num vs tws fuel h

/-- Witness for C5 amended on the four-token file "1 2 3 4" with trailing
whitespace: both pairs kept. -/
theorem C5_witness :
    readTwoColumnData true
      [Token.num 1, Token.num 2, Token.num 3, Token.num 4] true 20 =
      some (true, [1, 3], [2, 4]) := by
  have h := C5_token_split [1, 2, 3, 4] true 20 (by decide)
  simpa [altSplit] using h

end InterpFunct
